import Mathlib

set_option maxHeartbeats 1000000

/-!
Shallow embedding of the jktech processing-service job-lifecycle core.

The embedding covers:
* `ProcessingService` (in-memory job table, trigger / process / cancel /
  notify) from the processing service file of the repository;
* `DocumentProcessorService` (six-stage pipeline with per-stage config
  flags and progress checkpoints) and its Bull consumers;
* `QueueService.addJob` and the Bull retry policy configured in
  `queue.module.ts` (attempts 3, exponential backoff, base 2000 ms).

Asynchronous effects are made explicit: HTTP delivery is an oracle
`post : payload → Except String Unit` (an `Except.error` models a thrown
transport error / timeout), wall-clock values (`new Date()`, `Date.now()`)
are `Nat` parameters, and the points at which the simulated asynchronous
work can reject are failure-injection parameters (`failIdx` / `failAt`).
-/

/-- The status union of `IngestionJob` in the processing service:
`queued | processing | completed | failed`.  Note the source has
no `cancelled` member. -/
inductive JobStatus
  | queued
  | processing
  | completed
  | failed
  deriving DecidableEq

/-- The string each status serializes to in webhook payloads. -/
def statusString : JobStatus → String
  | .queued => "queued"
  | .processing => "processing"
  | .completed => "completed"
  | .failed => "failed"

/-- `IngestionConfigDto` (processing.dto).  Only the fields the lifecycle
code reads are kept explicit; `ocrSettings`, `analysisSettings` and
`metadata` are opaque pass-through data and are omitted. -/
structure IngestionConfigDto where
  processingType : Option String
  priority : Option Nat
  deriving DecidableEq

/-- The fixed completion result object written by
`ProcessingService.processDocument` on success. -/
structure JobResult where
  extractedText : String
  pageCount : Nat
  wordCount : Nat
  language : String
  sentiment : String
  topics : List String
  entities : List String
  deriving DecidableEq

/-- The literal result object from the success branch of
`ProcessingService.processDocument`. -/
def completedResult : JobResult :=
  { extractedText := "Sample extracted text content..."
  , pageCount := 5
  , wordCount := 1250
  , language := "en"
  , sentiment := "neutral"
  , topics := ["business", "technology"]
  , entities := ["Company A", "Product B"] }

/-- `IngestionJob` record of the processing service. -/
structure IngestionJob where
  id : String
  documentId : String
  ingestionId : String
  config : Option IngestionConfigDto
  status : JobStatus
  progress : Nat
  startedAt : Option Nat
  completedAt : Option Nat
  error : Option String
  result : Option JobResult
  deriving DecidableEq

/-- The in-memory `Map<string, IngestionJob>` job table, embedded as an
association list with `Map.set` semantics. -/
abbrev JobStore := List (String × IngestionJob)

/-- `Map.get`: first (and only) binding of the key. -/
def storeGet : JobStore → String → Option IngestionJob
  | [], _ => none
  | (k, j) :: rest, key => if k = key then some j else storeGet rest key

/-- `Map.set`: replace the binding in place, or append a new one. -/
def storeSet : JobStore → String → IngestionJob → JobStore
  | [], key, j => [(key, j)]
  | (k, j0) :: rest, key, j =>
      if k = key then (key, j) :: rest else (k, j0) :: storeSet rest key j

/-- Payload of a webhook notification attempt built by `notifyMainAPI`:
`{ingestionId, status, progress, timestamp, result?, error?}`. -/
structure Notification where
  ingestionId : String
  status : String
  progress : Nat
  timestamp : Nat
  result : Option JobResult
  error : Option String
  deriving DecidableEq

/-- `ProcessingService.notifyMainAPI`: builds the payload (the JS spreads
`...(result && {result})` and `...(error && {error})` drop falsy values,
so an empty error string is omitted), attempts the HTTP post, and catches
any delivery error, logging only.  Returns the attempted payload and
whether delivery succeeded; it never propagates an exception, which is
why its return type is not `Except`. -/
def notifyPayload (now : Nat) (ingestionId status : String) (progress : Nat)
    (result : Option JobResult) (error : Option String) : Notification :=
  { ingestionId := ingestionId
  , status := status
  , progress := progress
  , timestamp := now
  , result := result
  , error := match error with
      | some e => if e = "" then none else some e
      | none => none }

/-- The delivery attempt and catch-all of `notifyMainAPI`. -/
def notifyMainAPI (post : Notification → Except String Unit) (now : Nat)
    (ingestionId status : String) (progress : Nat)
    (result : Option JobResult) (error : Option String) : Notification × Bool :=
  match post (notifyPayload now ingestionId status progress result error) with
  | .ok _ => (notifyPayload now ingestionId status progress result error, true)
  | .error _ => (notifyPayload now ingestionId status progress result error, false)

/-- The queue payload `{ingestionId, documentId, config}` passed to
`queueService.addJob` and received back by `processDocument`. -/
structure JobData where
  ingestionId : String
  documentId : String
  config : Option IngestionConfigDto
  deriving DecidableEq

/-- A Bull queue entry as created by `QueueService.addJob`. -/
structure QueueItem where
  ingestionId : String
  documentId : String
  config : Option IngestionConfigDto
  priority : Nat
  delayMs : Nat
  deriving DecidableEq

/-- `QueueService.addJob`: wraps the data with
`priority: data.config?.priority || 5` (JS `||`, so a 0 priority also
falls back to 5) and `delay: options?.delay || 0`. -/
def addJob (data : JobData) (delayOpt : Option Nat) : QueueItem :=
  let p : Nat :=
    match data.config with
    | some c =>
        match c.priority with
        | some pr => if pr = 0 then 5 else pr
        | none => 5
    | none => 5
  { ingestionId := data.ingestionId
  , documentId := data.documentId
  , config := data.config
  , priority := p
  , delayMs := delayOpt.getD 0 }

/-- Result of `ProcessingService.triggerIngestion`: the updated job
table, the queue with the new entry appended, the `{jobId, status}`
response, and the fire-and-forget `queued` notification attempt. -/
structure TriggerOutcome where
  store : JobStore
  queue : List QueueItem
  response : String × String
  note : Notification × Bool
  deriving DecidableEq

/-- `ProcessingService.triggerIngestion`: unconditionally `Map.set`s a
fresh record (status `queued`, progress 0), enqueues, notifies, and
returns `{jobId: ingestionId, status: queued}`.  There is no check for
an existing record under the same id. -/
def triggerIngestion (post : Notification → Except String Unit)
    (s : JobStore) (q : List QueueItem)
    (documentId ingestionId : String) (config : Option IngestionConfigDto)
    (now : Nat) : TriggerOutcome :=
  let job : IngestionJob :=
    { id := ingestionId
    , documentId := documentId
    , ingestionId := ingestionId
    , config := config
    , status := .queued
    , progress := 0
    , startedAt := none
    , completedAt := none
    , error := none
    , result := none }
  let s1 := storeSet s ingestionId job
  let item := addJob { ingestionId := ingestionId, documentId := documentId, config := config } none
  let n := notifyMainAPI post now ingestionId "queued" 0 none none
  { store := s1, queue := q ++ [item], response := (ingestionId, "queued"), note := n }

/-- The five simulated phases of `simulateProcessingPhases`, with their
progress checkpoints. -/
def phases : List (String × Nat) :=
  [ ("Document Download", 20)
  , ("Text Extraction", 40)
  , ("Content Analysis", 60)
  , ("Metadata Extraction", 80)
  , ("Indexing", 95) ]

/-- State threaded through `simulateProcessingPhases`: the job table, the
(in-place mutated) job record, the trace of records written to the table,
and the notification attempts made so far. -/
structure PhaseState where
  store : JobStore
  job : IngestionJob
  writes : List IngestionJob
  notes : List (Notification × Bool)
  deriving DecidableEq

/-- `simulateProcessingPhases`, with the asynchronous simulated work of
phase `failIdx` allowed to reject with message `failMsg` (the rejection
happens before the progress write of that phase, matching the source order:
await the delay, then write progress, then notify).  Returns the final
state and `some msg` when a phase threw. -/
def runPhases (post : Notification → Except String Unit) (now : Nat)
    (failIdx : Option Nat) (failMsg : String) :
    List (String × Nat) → Nat → PhaseState → PhaseState × Option String
  | [], _, st => (st, none)
  | (_, p) :: rest, i, st =>
      if failIdx = some i then (st, some failMsg)
      else
        let j := { st.job with progress := p }
        runPhases post now failIdx failMsg rest (i + 1)
          { store := storeSet st.store j.ingestionId j
          , job := j
          , writes := st.writes ++ [j]
          , notes := st.notes ++ [notifyMainAPI post now j.ingestionId "processing" p none none] }

/-- Result of one `ProcessingService.processDocument` run: the job table
afterwards, the trace of records written to it, and the notification
attempts. -/
structure ProcOutcome where
  store : JobStore
  writes : List IngestionJob
  notes : List (Notification × Bool)
  deriving DecidableEq

/-- `ProcessingService.processDocument`.  Unknown ingestionId: log and
return (no store write, no notification).  Otherwise set the record to
`processing`/10, run the phases, and either complete (status `completed`,
progress 100, the fixed result) or, in the catch-all, mark the record
`failed` with the thrown message, keeping the progress reached.  The
function never throws: every failure path ends in the catch block. -/
def processDocument (post : Notification → Except String Unit)
    (s : JobStore) (d : JobData) (failIdx : Option Nat) (failMsg : String)
    (now : Nat) : ProcOutcome :=
  match storeGet s d.ingestionId with
  | none => { store := s, writes := [], notes := [] }
  | some job =>
    let job1 := { job with status := JobStatus.processing, startedAt := some now, progress := 10 }
    let s1 := storeSet s d.ingestionId job1
    let n1 := notifyMainAPI post now d.ingestionId "processing" 10 none none
    let pr := runPhases post now failIdx failMsg phases 0
      { store := s1, job := job1, writes := [job1], notes := [n1] }
    match pr.2 with
    | none =>
      let job2 := { pr.1.job with
          status := JobStatus.completed, completedAt := some now,
          progress := 100, result := some completedResult }
      { store := storeSet pr.1.store d.ingestionId job2
      , writes := pr.1.writes ++ [job2]
      , notes := pr.1.notes ++
          [notifyMainAPI post now d.ingestionId "completed" 100 (some completedResult) none] }
    | some msg =>
      let job3 := { pr.1.job with
          status := JobStatus.failed, completedAt := some now, error := some msg }
      { store := storeSet pr.1.store d.ingestionId job3
      , writes := pr.1.writes ++ [job3]
      , notes := pr.1.notes ++
          [notifyMainAPI post now d.ingestionId "failed" job3.progress none (some msg)] }

/-- Result of `ProcessingService.cancelIngestion`. -/
structure CancelOutcome where
  store : JobStore
  cancelled : Bool
  note : Option (Notification × Bool)
  deriving DecidableEq

/-- `ProcessingService.cancelIngestion`: unknown id or status already
`completed`/`failed` is a no-op returning `{cancelled: false}`; otherwise
the record is set to status `failed` (the type has no `cancelled`
member), error `Cancelled by user`, `completedAt` stamped, a `failed`
webhook is attempted, and `{cancelled: true}` is returned. -/
def cancelIngestion (post : Notification → Except String Unit)
    (s : JobStore) (ingestionId : String) (now : Nat) : CancelOutcome :=
  match storeGet s ingestionId with
  | none => { store := s, cancelled := false, note := none }
  | some job =>
    if job.status = .completed ∨ job.status = .failed then
      { store := s, cancelled := false, note := none }
    else
      let j := { job with status := JobStatus.failed,
                          error := some "Cancelled by user", completedAt := some now }
      { store := storeSet s ingestionId j
      , cancelled := true
      , note := some (notifyMainAPI post now ingestionId "failed" j.progress none (some "Cancelled by user")) }

/-- `DocumentProcessor.handleDocumentProcessing` (the Bull consumer of
the `document-processing` queue in the queue module): it re-throws any
error from `processingService.processDocument`, but that function
handles every failure internally and never throws, so the handler always
returns its success object `{success: true, message: ...}`. -/
def handleDocumentProcessing (post : Notification → Except String Unit)
    (s : JobStore) (d : JobData) (failIdx : Option Nat) (failMsg : String)
    (now : Nat) : Except String (ProcOutcome × Bool × String) :=
  Except.ok (processDocument post s d failIdx failMsg now, true, "Document processed successfully")

/-- Modelled from the spec: the Bull queue engine itself is an external
collaborator (spec section 4.1); its retry policy over one delivered
attempt is: a processor that returns acks the entry; a processor that
throws is retried with backoff while `attempt < maxAttempts` and
dead-lettered on the final attempt. -/
inductive BullOutcome
  | ack
  | retryAt (delayMs : Nat)
  | deadLetter
  deriving DecidableEq

/-- `defaultJobOptions.attempts` configured in `queue.module.ts`. -/
def defaultJobAttempts : Nat := 3

/-- `defaultJobOptions.backoff.delay` (exponential, ms) configured in
`queue.module.ts`. -/
def defaultBackoffBaseMs : Nat := 2000

/-- Modelled from the spec: exponential backoff with the configured base
delay, doubling per attempt. -/
def backoffDelay (baseMs attempt : Nat) : Nat := baseMs * 2 ^ (attempt - 1)

/-- Modelled from the spec: what the Bull collaborator does with the
result of one processor invocation. -/
def bullStep {α : Type} (attempt maxAttempts baseMs : Nat)
    (r : Except String α) : BullOutcome :=
  match r with
  | .ok _ => .ack
  | .error _ =>
      if attempt < maxAttempts then .retryAt (backoffDelay baseMs attempt)
      else .deadLetter

/-! ## DocumentProcessorService (six-stage pipeline) -/

/-- `ProcessingConfig` (processing.dto): per-job stage toggles. -/
structure ProcessingConfig where
  extractText : Bool
  performOCR : Bool
  extractKeywords : Bool
  generateSummary : Bool
  detectLanguage : Bool
  enableSearch : Bool
  deriving DecidableEq

/-- The fields of `DocumentProcessingJob` the pipeline reads. -/
structure DPJob where
  documentId : String
  fileName : String
  fileType : String
  deriving DecidableEq

/-- `ProcessingResult` (processing.dto), as built by the pipeline.  The
optional `metadata` field of the interface is never assigned on this
path and is omitted. -/
structure ProcessingResult where
  documentId : String
  success : Bool
  extractedText : Option String
  ocrText : Option String
  keywords : Option (List String)
  summary : Option String
  language : Option String
  processingTime : Nat
  errors : List String
  deriving DecidableEq

/-- `String.prototype.toLowerCase` (ASCII case mapping). -/
def strToLower (s : String) : String := String.mk (s.data.map Char.toLower)

/-- JS `text.split(/\s+/)`: separators are maximal whitespace runs, and a
leading or trailing run contributes an empty piece.  `splitWsGo rem acc
inWs` consumes `rem` with `acc` holding the reversed current piece and
`inWs` recording whether the previous character was whitespace (so a
longer run does not emit further pieces). -/
def splitWsGo : List Char → List Char → Bool → List String
  | [], acc, _ => [String.mk acc.reverse]
  | c :: cs, acc, inWs =>
      if c.isWhitespace then
        if inWs then splitWsGo cs acc true
        else String.mk acc.reverse :: splitWsGo cs [] true
      else splitWsGo cs (c :: acc) false

/-- JS `s.split(/\s+/)`. -/
def jsSplitWs (s : String) : List String := splitWsGo s.data [] false

/-- `[...new Set(words)]`: deduplicate keeping the first occurrence.
`seen` accumulates the elements already emitted. -/
def uniqueFirstAux (seen : List String) : List String → List String
  | [] => []
  | x :: xs =>
      if x ∈ seen then uniqueFirstAux seen xs
      else x :: uniqueFirstAux (x :: seen) xs

/-- `[...new Set(words)]` on an empty `seen` set. -/
def uniqueFirst (l : List String) : List String := uniqueFirstAux [] l

/-- `DocumentProcessorService.extractKeywords(job, text?)`.  The guard is
JS `if (!text)`, which is taken both for an undefined and for an empty
text.  Otherwise: lowercase, split on whitespace, deduplicate, keep words
longer than 3 characters, take the first 10, and fall back to the fixed
list when nothing qualifies. -/
def extractKeywords (fileType : String) (text : Option String) : List String :=
  match text with
  | none => ["document", "file", fileType]
  | some t =>
      if t = "" then ["document", "file", fileType]
      else
        let words := jsSplitWs (strToLower t)
        let keywords := ((uniqueFirst words).filter (fun w => 3 < w.length)).take 10
        if 0 < keywords.length then keywords else ["document", "content", "text"]

/-- `DocumentProcessorService.extractText`: the simulated per-file-type
extraction switch. -/
def extractTextImpl (job : DPJob) : String :=
  match strToLower job.fileType with
  | "pdf" =>
      "Extracted text from PDF: " ++ job.fileName ++ ". This is sample extracted text content."
  | "docx" =>
      "Extracted text from Word document: " ++ job.fileName ++ ". This is sample extracted text content."
  | "doc" =>
      "Extracted text from Word document: " ++ job.fileName ++ ". This is sample extracted text content."
  | "txt" =>
      "Text file content: " ++ job.fileName ++ ". This is sample text file content."
  | _ =>
      "Generic text extraction from " ++ job.fileName ++ ". This is sample extracted content."

/-- `DocumentProcessorService.performOCR`: simulated OCR. -/
def performOCRImpl (job : DPJob) : String :=
  if ["jpg", "jpeg", "png", "tiff", "bmp"].contains (strToLower job.fileType) then
    "OCR text from image " ++ job.fileName ++ ": This is sample OCR extracted text from the image."
  else
    "OCR processing not applicable for file type: " ++ job.fileType

/-- `DocumentProcessorService.generateSummary` (JS `if (!text)` again
covers undefined and empty text). -/
def generateSummaryImpl (fileName : String) (text : Option String) : String :=
  match text with
  | none =>
      "Summary for " ++ fileName ++
        ": This document contains content that could not be processed for summary generation."
  | some t =>
      if t = "" then
        "Summary for " ++ fileName ++
          ": This document contains content that could not be processed for summary generation."
      else
        "Summary for " ++ fileName ++ ": This document contains " ++ toString t.length ++
          " characters of content. The main topics appear to be related to the document\x27s primary subject matter."

/-- JS `hay.includes(needle)` helper: needle is a prefix of hay. -/
def listStartsWith : List Char → List Char → Bool
  | [], _ => true
  | _ :: _, [] => false
  | a :: as, b :: bs => a = b && listStartsWith as bs

/-- JS `hay.includes(needle)` helper: needle occurs inside hay. -/
def listHasSub (needle : List Char) : List Char → Bool
  | [] => needle.isEmpty
  | c :: cs => listStartsWith needle (c :: cs) || listHasSub needle cs

/-- JS `hay.includes(needle)`. -/
def strIncludes (hay needle : String) : Bool := listHasSub needle.data hay.data

/-- The stop-word list of `detectLanguage`. -/
def englishWords : List String := ["the", "and", "is", "in", "to", "of", "a", "that"]

/-- `DocumentProcessorService.detectLanguage`: count the stop words
occurring as substrings of the lowercased text and answer `en` when more
than three do. -/
def detectLanguageImpl (text : Option String) : String :=
  match text with
  | none => "unknown"
  | some t =>
      if t = "" then "unknown"
      else
        let tl := strToLower t
        if 3 < (englishWords.filter (fun w => strIncludes tl w)).length then "en" else "unknown"

/-- The six pipeline stages, in source order. -/
inductive Stage
  | extractText
  | performOCR
  | extractKeywords
  | generateSummary
  | detectLanguage
  | enableSearch
  deriving DecidableEq

/-- Position of a stage in the fixed pipeline order. -/
def stageIdx : Stage → Nat
  | .extractText => 0
  | .performOCR => 1
  | .extractKeywords => 2
  | .generateSummary => 3
  | .detectLanguage => 4
  | .enableSearch => 5

/-- The config flag guarding each stage. -/
def stageEnabled (cfg : ProcessingConfig) : Stage → Bool
  | .extractText => cfg.extractText
  | .performOCR => cfg.performOCR
  | .extractKeywords => cfg.extractKeywords
  | .generateSummary => cfg.generateSummary
  | .detectLanguage => cfg.detectLanguage
  | .enableSearch => cfg.enableSearch

/-- The progress checkpoint written just before each stage executes. -/
def checkpointOf : Stage → Nat
  | .extractText => 10
  | .performOCR => 30
  | .extractKeywords => 50
  | .generateSummary => 70
  | .detectLanguage => 85
  | .enableSearch => 95

/-- The effect of a successfully executed stage on the accumulated
result.  Keyword extraction, summary generation and language detection
consume `result.extractedText`; search indexing has no observable output
on the result. -/
def applyStage (job : DPJob) : Stage → ProcessingResult → ProcessingResult
  | .extractText, r => { r with extractedText := some (extractTextImpl job) }
  | .performOCR, r => { r with ocrText := some (performOCRImpl job) }
  | .extractKeywords, r => { r with keywords := some (extractKeywords job.fileType r.extractedText) }
  | .generateSummary, r => { r with summary := some (generateSummaryImpl job.fileName r.extractedText) }
  | .detectLanguage, r => { r with language := some (detectLanguageImpl r.extractedText) }
  | .enableSearch, r => r

/-- Whether the output field a stage would set is present. -/
def stageDone (r : ProcessingResult) : Stage → Bool
  | .extractText => r.extractedText.isSome
  | .performOCR => r.ocrText.isSome
  | .extractKeywords => r.keywords.isSome
  | .generateSummary => r.summary.isSome
  | .detectLanguage => r.language.isSome
  | .enableSearch => false

/-- The fixed execution order of the six stage blocks. -/
def stageOrder : List Stage :=
  [.extractText, .performOCR, .extractKeywords, .generateSummary, .detectLanguage, .enableSearch]

/-- The sequential stage blocks of
`DocumentProcessorService.processDocument`: each enabled stage first
writes its progress checkpoint, then runs; a stage whose asynchronous
work rejects (`failAt`) throws `failMsg` after the progress write,
carrying the result and progress trace accumulated so far into the
catch block. -/
def runStages (cfg : ProcessingConfig) (failAt : Option Stage) (failMsg : String) (job : DPJob) :
    List Stage → ProcessingResult × List Nat →
    Except (String × ProcessingResult × List Nat) (ProcessingResult × List Nat)
  | [], acc => .ok acc
  | st :: rest, acc =>
      if stageEnabled cfg st then
        let upds := acc.2 ++ [checkpointOf st]
        if failAt = some st then .error (failMsg, acc.1, upds)
        else runStages cfg failAt failMsg job rest (applyStage job st acc.1, upds)
      else runStages cfg failAt failMsg job rest acc

/-- Payload `{documentId, result}` of `sendProcessingCallback`. -/
structure CallbackPayload where
  documentId : String
  result : ProcessingResult
  deriving DecidableEq

/-- `DocumentProcessorService.sendProcessingCallback`: attempts the HTTP
post and catches any delivery error, logging only; the caller never sees
an exception.  Returns the attempted payload and whether delivery
succeeded. -/
def sendProcessingCallback (cpost : CallbackPayload → Except String Unit)
    (documentId : String) (result : ProcessingResult) : CallbackPayload × Bool :=
  let payload : CallbackPayload := { documentId := documentId, result := result }
  match cpost payload with
  | .ok _ => (payload, true)
  | .error _ => (payload, false)

/-- Result of one `DocumentProcessorService.processDocument` run. -/
structure DPOutcome where
  result : ProcessingResult
  progressUpdates : List Nat
  callback : CallbackPayload × Bool
  deriving DecidableEq

/-- The initial `result` object of
`DocumentProcessorService.processDocument`: all stage outputs unset. -/
def initialResult (job : DPJob) : ProcessingResult :=
  { documentId := job.documentId, success := false, extractedText := none
  , ocrText := none, keywords := none, summary := none, language := none
  , processingTime := 0, errors := [] }

/-- `DocumentProcessorService.processDocument`: run the enabled stages in
order; on success write the final 100 checkpoint, set `success := true`
and the elapsed time, and send the callback; in the catch block set
`success := false`, `errors := [error.message]`, and send the failure
callback.  Either way the function returns the result normally - the
caught stage error is never re-thrown. -/
def dpsProcessDocument (cpost : CallbackPayload → Except String Unit)
    (job : DPJob) (cfg : ProcessingConfig) (failAt : Option Stage)
    (failMsg : String) (elapsed : Nat) : DPOutcome :=
  match runStages cfg failAt failMsg job stageOrder (initialResult job, []) with
  | .ok (r, upds) =>
      let rr := { r with success := true, processingTime := elapsed }
      { result := rr, progressUpdates := upds ++ [100]
      , callback := sendProcessingCallback cpost job.documentId rr }
  | .error (msg, r, upds) =>
      let rr := { r with success := false, errors := [msg], processingTime := elapsed }
      { result := rr, progressUpdates := upds
      , callback := sendProcessingCallback cpost job.documentId rr }

/-- `QueueConsumerService.processDocument` (the Bull consumer in the
processing module): re-throws any error from
`documentProcessor.processDocument`, but that function catches every
stage failure and returns the result object, so the consumer always
returns it to Bull - a stage failure is reported as a successful job
completion to the queue. -/
def qcProcessDocument (cpost : CallbackPayload → Except String Unit)
    (job : DPJob) (cfg : ProcessingConfig) (failAt : Option Stage)
    (failMsg : String) (elapsed : Nat) : Except String DPOutcome :=
  Except.ok (dpsProcessDocument cpost job cfg failAt failMsg elapsed)

/-! ## Helper lemmas -/

lemma storeGet_storeSet_self (s : JobStore) (k : String) (j : IngestionJob) :
    storeGet (storeSet s k j) k = some j := by
  induction s with
  | nil => simp [storeSet, storeGet]
  | cons hd tl ih =>
      rcases hd with ⟨k0, j0⟩
      by_cases h : k0 = k
      · simp [storeSet, storeGet, h]
      · simp [storeSet, storeGet, h, ih]

lemma notifyMainAPI_fst (post post' : Notification → Except String Unit) (now : Nat)
    (ingId st : String) (p : Nat) (r : Option JobResult) (e : Option String) :
    (notifyMainAPI post now ingId st p r e).1 = (notifyMainAPI post' now ingId st p r e).1 := by
  unfold notifyMainAPI
  rcases post (notifyPayload now ingId st p r e) with _ | _ <;>
    rcases post' (notifyPayload now ingId st p r e) with _ | _ <;> rfl

lemma sendProcessingCallback_fst (cpost cpost' : CallbackPayload → Except String Unit)
    (d : String) (r : ProcessingResult) :
    (sendProcessingCallback cpost d r).1 = (sendProcessingCallback cpost' d r).1 := by
  rcases h : cpost { documentId := d, result := r } with _ | _ <;>
    rcases h' : cpost' { documentId := d, result := r } with _ | _ <;>
      simp [sendProcessingCallback, h, h']

/-- The monotone-and-bounded invariant for a trace of progress values. -/
def monoLe (l : List Nat) (b : Nat) : Prop :=
  l.Chain' (· ≤ ·) ∧ ∀ p ∈ l, p ≤ b

lemma monoLe_nil (b : Nat) : monoLe [] b := ⟨List.chain'_nil, by simp⟩

lemma monoLe_mono {l : List Nat} {b c : Nat} (h : monoLe l b) (hbc : b ≤ c) : monoLe l c :=
  ⟨h.1, fun p hp => le_trans (h.2 p hp) hbc⟩

lemma monoLe_snoc {l : List Nat} {b c : Nat} (h : monoLe l b) (hbc : b ≤ c) :
    monoLe (l ++ [c]) c := by
  refine ⟨?_, ?_⟩
  · rw [List.chain'_append]
    refine ⟨h.1, List.chain'_singleton _, ?_⟩
    intro x hx y hy
    obtain ⟨hne, hx'⟩ := List.mem_getLast?_eq_getLast hx
    simp only [List.head?_cons, Option.mem_def, Option.some.injEq] at hy
    subst hy
    exact le_trans (hx' ▸ h.2 _ (List.getLast_mem hne)) hbc
  · intro p hp
    rcases List.mem_append.mp hp with h1 | h2
    · exact le_trans (h.2 p h1) hbc
    · simp only [List.mem_singleton] at h2
      subst h2
      exact le_refl _

lemma runPhases_mono (post : Notification → Except String Unit) (now : Nat)
    (fi : Option Nat) (fm : String) (ps : List (String × Nat)) :
    ∀ (i : Nat) (st : PhaseState),
      monoLe (st.writes.map (fun j => j.progress)) st.job.progress →
      (st.job.progress :: ps.map Prod.snd).Pairwise (· ≤ ·) →
      (∀ q ∈ ps, q.2 ≤ 100) →
      st.job.progress ≤ 100 →
      monoLe ((runPhases post now fi fm ps i st).1.writes.map (fun j => j.progress))
          (runPhases post now fi fm ps i st).1.job.progress ∧
        (runPhases post now fi fm ps i st).1.job.progress ≤ 100 := by
  induction ps with
  | nil =>
      intro i st h1 _ _ h4
      exact ⟨by simpa [runPhases] using h1, by simpa [runPhases] using h4⟩
  | cons hd rest ih =>
      rcases hd with ⟨nm, p⟩
      intro i st h1 h2 h3 h4
      by_cases hf : fi = some i
      · exact ⟨by simpa [runPhases, hf] using h1, by simpa [runPhases, hf] using h4⟩
      · have hbp : st.job.progress ≤ p := (List.pairwise_cons.mp h2).1 p (by simp)
        have hmono' : monoLe ((st.writes ++ [{ st.job with progress := p }]).map
            (fun j : IngestionJob => j.progress)) p := by
          simpa using monoLe_snoc h1 hbp
        have hpair' : (p :: rest.map Prod.snd).Pairwise (· ≤ ·) := by
          have := (List.pairwise_cons.mp h2).2
          simpa using this
        have h100 : p ≤ 100 := h3 (nm, p) (by simp)
        have := ih (i + 1)
          { store := storeSet st.store ({ st.job with progress := p }).ingestionId
              { st.job with progress := p }
          , job := { st.job with progress := p }
          , writes := st.writes ++ [{ st.job with progress := p }]
          , notes := st.notes ++
              [notifyMainAPI post now ({ st.job with progress := p }).ingestionId "processing" p none none] }
          hmono' hpair' (fun q hq => h3 q (by simp [hq])) h100
        simpa [runPhases, hf] using this

lemma runPhases_writes_grow (post : Notification → Except String Unit) (now : Nat)
    (fi : Option Nat) (fm : String) (ps : List (String × Nat)) :
    ∀ (i : Nat) (st : PhaseState),
      ∃ l, (runPhases post now fi fm ps i st).1.writes = st.writes ++ l := by
  induction ps with
  | nil => intro i st; exact ⟨[], by simp [runPhases]⟩
  | cons hd rest ih =>
      rcases hd with ⟨nm, p⟩
      intro i st
      by_cases hf : fi = some i
      · exact ⟨[], by simp [runPhases, hf]⟩
      · obtain ⟨l, hl⟩ := ih (i + 1)
          { store := storeSet st.store ({ st.job with progress := p }).ingestionId
              { st.job with progress := p }
          , job := { st.job with progress := p }
          , writes := st.writes ++ [{ st.job with progress := p }]
          , notes := st.notes ++
              [notifyMainAPI post now ({ st.job with progress := p }).ingestionId "processing" p none none] }
        refine ⟨[{ st.job with progress := p }] ++ l, ?_⟩
        simp only [runPhases, hf]
        simpa [List.append_assoc] using hl

lemma runPhases_fail (post : Notification → Except String Unit) (now : Nat)
    (k : Nat) (fm : String) (ps : List (String × Nat)) :
    ∀ (i : Nat) (st : PhaseState), i ≤ k → k < i + ps.length →
      (runPhases post now (some k) fm ps i st).2 = some fm := by
  induction ps with
  | nil => intro i st h1 h2; simp at h2; omega
  | cons hd rest ih =>
      rcases hd with ⟨nm, p⟩
      intro i st h1 h2
      by_cases hf : k = i
      · simp [runPhases, hf]
      · have hne : ¬((some k : Option Nat) = some i) := by simp [hf]
        simp only [runPhases, hne, if_false]
        exact ih (i + 1) _ (by omega) (by simp at h2 ⊢; omega)

lemma runPhases_ok (post : Notification → Except String Unit) (now : Nat)
    (fm : String) (ps : List (String × Nat)) :
    ∀ (i : Nat) (st : PhaseState),
      (runPhases post now none fm ps i st).2 = none := by
  induction ps with
  | nil => intro i st; simp [runPhases]
  | cons hd rest ih =>
      rcases hd with ⟨nm, p⟩
      intro i st
      have hne : ¬((none : Option Nat) = some i) := by simp
      simp only [runPhases, hne, if_false]
      exact ih (i + 1) _

/-- Result component of a pipeline outcome, thrown or returned. -/
def resultOf (e : Except (String × ProcessingResult × List Nat) (ProcessingResult × List Nat)) :
    ProcessingResult :=
  match e with
  | .ok (r, _) => r
  | .error (_, r, _) => r

/-- Progress-trace component of a pipeline outcome, thrown or returned. -/
def updsOf (e : Except (String × ProcessingResult × List Nat) (ProcessingResult × List Nat)) :
    List Nat :=
  match e with
  | .ok (_, u) => u
  | .error (_, _, u) => u

lemma stageDone_applyStage (job : DPJob) (s st : Stage) (r : ProcessingResult)
    (h : s ≠ st) : stageDone (applyStage job s r) st = stageDone r st := by
  cases s <;> cases st <;> simp [applyStage, stageDone] <;> simp at h

lemma runStages_upds_mono (cfg : ProcessingConfig) (fa : Option Stage) (fm : String)
    (job : DPJob) (l : List Stage) :
    ∀ (acc : ProcessingResult × List Nat) (b : Nat),
      monoLe acc.2 b →
      (b :: l.map checkpointOf).Pairwise (· ≤ ·) →
      (∀ s ∈ l, checkpointOf s ≤ 100) → b ≤ 100 →
      monoLe (updsOf (runStages cfg fa fm job l acc)) 100 := by
  induction l with
  | nil =>
      intro acc b h1 _ _ h4
      exact monoLe_mono (by simpa [runStages, updsOf] using h1) h4
  | cons s rest ih =>
      intro acc b h1 h2 h3 h4
      have hb : b ≤ checkpointOf s := (List.pairwise_cons.mp h2).1 _ (by simp)
      have hpair' : (checkpointOf s :: rest.map checkpointOf).Pairwise (· ≤ ·) := by
        simpa using (List.pairwise_cons.mp h2).2
      have hc100 : checkpointOf s ≤ 100 := h3 s (by simp)
      by_cases he : stageEnabled cfg s
      · by_cases hfa : fa = some s
        · have : monoLe (acc.2 ++ [checkpointOf s]) 100 :=
            monoLe_mono (monoLe_snoc h1 hb) hc100
          simpa [runStages, he, hfa, updsOf] using this
        · have hrec := ih (applyStage job s acc.1, acc.2 ++ [checkpointOf s]) (checkpointOf s)
            (by simpa using monoLe_snoc h1 hb) hpair' (fun q hq => h3 q (by simp [hq])) hc100
          simpa [runStages, he, hfa] using hrec
      · have hpair'' : (b :: rest.map checkpointOf).Pairwise (· ≤ ·) := by
          rcases List.pairwise_cons.mp h2 with ⟨hhead, htail⟩
          refine List.pairwise_cons.mpr ⟨?_, (List.pairwise_cons.mp htail).2⟩
          intro x hx
          exact hhead x (by simp [hx])
        have hrec := ih acc b h1 hpair'' (fun q hq => h3 q (by simp [hq])) h4
        simpa [runStages, he] using hrec

lemma runStages_split (cfg : ProcessingConfig) (fa : Option Stage) (fm : String)
    (job : DPJob) (l1 l2 : List Stage) :
    ∀ acc, runStages cfg fa fm job (l1 ++ l2) acc =
      match runStages cfg fa fm job l1 acc with
      | .ok a => runStages cfg fa fm job l2 a
      | .error e => .error e := by
  induction l1 with
  | nil => intro acc; simp [runStages]
  | cons s rest ih =>
      intro acc
      by_cases he : stageEnabled cfg s
      · by_cases hfa : fa = some s
        · simp [runStages, he, hfa]
        · simp only [List.cons_append, runStages, he, if_true, hfa, if_false]
          exact ih _
      · simp only [List.cons_append, runStages, he, if_false]
        exact ih _

lemma runStages_ok_of_fail_absent (cfg : ProcessingConfig) (fa : Option Stage) (fm : String)
    (job : DPJob) (l : List Stage) :
    ∀ acc, (∀ s ∈ l, fa ≠ some s) →
      ∃ a, runStages cfg fa fm job l acc = .ok a := by
  induction l with
  | nil => intro acc _; exact ⟨acc, by simp [runStages]⟩
  | cons s rest ih =>
      intro acc h
      by_cases he : stageEnabled cfg s
      · have hfa : ¬(fa = some s) := h s (by simp)
        obtain ⟨a, ha⟩ := ih (applyStage job s acc.1, acc.2 ++ [checkpointOf s])
          (fun x hx => h x (by simp [hx]))
        exact ⟨a, by simp only [runStages, he, if_true, hfa, if_false]; exact ha⟩
      · obtain ⟨a, ha⟩ := ih acc (fun x hx => h x (by simp [hx]))
        exact ⟨a, by simp only [runStages, he, if_false]; exact ha⟩

lemma runStages_stageDone_absent (cfg : ProcessingConfig) (fa : Option Stage) (fm : String)
    (job : DPJob) (st : Stage) (l : List Stage) :
    ∀ acc, st ∉ l →
      stageDone (resultOf (runStages cfg fa fm job l acc)) st = stageDone acc.1 st := by
  induction l with
  | nil => intro acc _; simp [runStages, resultOf]
  | cons s rest ih =>
      intro acc hst
      have hs : s ≠ st := fun h => hst (by simp [h])
      have hrest : st ∉ rest := fun h => hst (by simp [h])
      by_cases he : stageEnabled cfg s
      · by_cases hfa : fa = some s
        · simp [runStages, he, hfa, resultOf]
        · have := ih (applyStage job s acc.1, acc.2 ++ [checkpointOf s]) hrest
          simp only [runStages, he, if_true, hfa, if_false]
          rw [this]
          exact stageDone_applyStage job s st acc.1 hs
      · have := ih acc hrest
        simp only [runStages, he, if_false]
        exact this

/-! ## uniqueFirst lemmas -/

lemma uniqueFirstAux_subset : ∀ (l seen : List String) (y : String),
    y ∈ uniqueFirstAux seen l → y ∈ l := by
  intro l
  induction l with
  | nil => intro seen y h; simp [uniqueFirstAux] at h
  | cons x xs ih =>
      intro seen y h
      by_cases hx : x ∈ seen
      · simp only [uniqueFirstAux, if_pos hx] at h
        exact List.mem_cons_of_mem _ (ih seen y h)
      · simp only [uniqueFirstAux, if_neg hx, List.mem_cons] at h
        rcases h with h | h
        · simp [h]
        · exact List.mem_cons_of_mem _ (ih _ y h)

lemma uniqueFirstAux_not_seen : ∀ (l seen : List String) (y : String),
    y ∈ uniqueFirstAux seen l → y ∉ seen := by
  intro l
  induction l with
  | nil => intro seen y h; simp [uniqueFirstAux] at h
  | cons x xs ih =>
      intro seen y h
      by_cases hx : x ∈ seen
      · simp only [uniqueFirstAux, if_pos hx] at h
        exact ih seen y h
      · simp only [uniqueFirstAux, if_neg hx, List.mem_cons] at h
        rcases h with h | h
        · subst h; exact hx
        · intro hy
          exact ih _ y h (List.mem_cons_of_mem _ hy)

lemma uniqueFirstAux_nodup : ∀ (l seen : List String), (uniqueFirstAux seen l).Nodup := by
  intro l
  induction l with
  | nil => intro seen; simp [uniqueFirstAux]
  | cons x xs ih =>
      intro seen
      by_cases hx : x ∈ seen
      · simpa only [uniqueFirstAux, if_pos hx] using ih seen
      · simp only [uniqueFirstAux, if_neg hx]
        refine List.nodup_cons.mpr ⟨?_, ih _⟩
        intro hmem
        exact uniqueFirstAux_not_seen xs (x :: seen) x hmem (by simp)

lemma uniqueFirst_nodup (l : List String) : (uniqueFirst l).Nodup :=
  uniqueFirstAux_nodup l []

lemma uniqueFirst_subset (l : List String) (y : String) (h : y ∈ uniqueFirst l) : y ∈ l :=
  uniqueFirstAux_subset l [] y h

/-! ## Concrete demonstration values -/

/-- A webhook transport that always delivers. -/
def post0 : Notification → Except String Unit := fun _ => Except.ok ()

/-- A webhook transport that always times out. -/
def postFail : Notification → Except String Unit :=
  fun _ => Except.error "timeout of 5000ms exceeded"

/-- A callback transport that always delivers. -/
def cpost0 : CallbackPayload → Except String Unit := fun _ => Except.ok ()

/-- A callback transport that always times out. -/
def cpostFail : CallbackPayload → Except String Unit :=
  fun _ => Except.error "timeout of 10000ms exceeded"

/-- A freshly queued demo job. -/
def demoQueuedJob : IngestionJob :=
  { id := "j", documentId := "d", ingestionId := "j", config := none
  , status := .queued, progress := 0, startedAt := none, completedAt := none
  , error := none, result := none }

/-- A store holding the queued demo job. -/
def demoStore : JobStore := [("j", demoQueuedJob)]

/-- A demo job already in the terminal `failed` state. -/
def demoFailedJob : IngestionJob :=
  { demoQueuedJob with status := JobStatus.failed, progress := 50, error := some "boom" }

/-- A store holding only the failed demo job. -/
def demoStoreFailed : JobStore := [("j", demoFailedJob)]

/-- The queue payload addressed to the demo job. -/
def demoItem : JobData := { ingestionId := "j", documentId := "d", config := none }

/-- A demo pipeline job. -/
def demoDPJob : DPJob := { documentId := "doc1", fileName := "f.pdf", fileType := "pdf" }

/-- A config with every stage enabled. -/
def cfgAll : ProcessingConfig :=
  { extractText := true, performOCR := true, extractKeywords := true
  , generateSummary := true, detectLanguage := true, enableSearch := true }

/-! ## C1 -/

/-- C1 counterexample: cancelling the queued demo job makes the stored
status serialize to "failed", not to a distinct "cancelled" value - the
status union of the source has no `cancelled` member, and the record is
stored with error `Cancelled by user`. -/
theorem cancelIngestion_no_cancelled_state_cex :
    (cancelIngestion post0 demoStore "j" 7).cancelled = true ∧
    (storeGet (cancelIngestion post0 demoStore "j" 7).store "j").map
        (fun j => statusString j.status) = some "failed" ∧
    (storeGet (cancelIngestion post0 demoStore "j" 7).store "j").map
        (fun j => statusString j.status) ≠ some "cancelled" ∧
    (storeGet (cancelIngestion post0 demoStore "j" 7).store "j").map
        (fun j => j.error) = some (some "Cancelled by user") := by
  refine ⟨rfl, rfl, by decide, rfl⟩

/-- C1 (amended): cancelling a job that is neither `completed` nor
`failed` returns `{cancelled: true}` and rewrites the stored record to
status `failed` (there is no distinct `cancelled` state) with error
`Cancelled by user` and a `completedAt` stamp. -/
theorem cancelIngestion_marks_failed :
    ∀ (post : Notification → Except String Unit) (s : JobStore) (ingId : String)
      (now : Nat) (j : IngestionJob),
      storeGet s ingId = some j →
      ¬(j.status = .completed ∨ j.status = .failed) →
      (cancelIngestion post s ingId now).cancelled = true ∧
      storeGet (cancelIngestion post s ingId now).store ingId =
        some { j with status := JobStatus.failed,
                      error := some "Cancelled by user", completedAt := some now } := by
  intro post s ingId now j h hnt
  simp [cancelIngestion, h, hnt, storeGet_storeSet_self]

/-- C1 witness: the amended statement evaluated on the queued demo job. -/
theorem cancelIngestion_marks_failed_witness :
    (cancelIngestion post0 demoStore "j" 7).cancelled = true ∧
    storeGet (cancelIngestion post0 demoStore "j" 7).store "j" =
      some { demoQueuedJob with status := JobStatus.failed,
                                error := some "Cancelled by user", completedAt := some 7 } :=
  cancelIngestion_marks_failed post0 demoStore "j" 7 demoQueuedJob (by decide) (by decide)

/-! ## C6 -/

/-- C6: `cancelIngestion` returns `{cancelled: false}` exactly when the
id is absent from the job table or the stored status is terminal
(`completed` or `failed`), and in that case the table is left completely
unchanged and no webhook is attempted; in every other case it returns
`{cancelled: true}`. -/
theorem cancelIngestion_false_iff_unknown_or_terminal :
    ∀ (post : Notification → Except String Unit) (s : JobStore) (ingId : String) (now : Nat),
      ((cancelIngestion post s ingId now).cancelled = false ↔
        storeGet s ingId = none ∨
          ∃ j, storeGet s ingId = some j ∧ (j.status = .completed ∨ j.status = .failed)) ∧
      ((cancelIngestion post s ingId now).cancelled = false →
        (cancelIngestion post s ingId now).store = s ∧
          (cancelIngestion post s ingId now).note = none) := by
  intro post s ingId now
  rcases h : storeGet s ingId with _ | j
  · simp [cancelIngestion, h]
  · by_cases ht : j.status = .completed ∨ j.status = .failed
    · refine ⟨⟨fun _ => Or.inr ⟨j, rfl, ht⟩, fun _ => by simp [cancelIngestion, h, ht]⟩, ?_⟩
      intro _
      constructor <;> simp [cancelIngestion, h, ht]
    · have hc : (cancelIngestion post s ingId now).cancelled = true := by
        simp [cancelIngestion, h, ht]
      refine ⟨⟨fun hfalse => ?_, fun hr => ?_⟩, fun hfalse => ?_⟩
      · rw [hc] at hfalse
        simp at hfalse
      · exfalso
        rcases hr with hnone | ⟨j', hj', ht'⟩
        · simp at hnone
        · injection hj' with hj''
          subst hj''
          exact absurd ht' ht
      · rw [hc] at hfalse
        simp at hfalse

/-- C6 witness: the statement evaluated on the terminal demo store. -/
theorem cancelIngestion_false_iff_unknown_or_terminal_witness :
    ((cancelIngestion post0 demoStoreFailed "j" 7).cancelled = false ↔
      storeGet demoStoreFailed "j" = none ∨
        ∃ j, storeGet demoStoreFailed "j" = some j ∧
          (j.status = .completed ∨ j.status = .failed)) ∧
    ((cancelIngestion post0 demoStoreFailed "j" 7).cancelled = false →
      (cancelIngestion post0 demoStoreFailed "j" 7).store = demoStoreFailed ∧
        (cancelIngestion post0 demoStoreFailed "j" 7).note = none) :=
  cancelIngestion_false_iff_unknown_or_terminal post0 demoStoreFailed "j" 7

/-! ## C9 -/

/-- C9: `triggerIngestion` never rejects a duplicate id: for every store,
including one already holding a record under `ingestionId` (terminal or
not), it replaces the record with a fresh one (status `queued`, progress
0, all outcome fields cleared), appends exactly one new queue item, and
returns `{jobId: ingestionId, status: queued}`. -/
theorem triggerIngestion_unconditional_replace :
    ∀ (post : Notification → Except String Unit) (s : JobStore) (q : List QueueItem)
      (docId ingId : String) (config : Option IngestionConfigDto) (now : Nat),
      storeGet (triggerIngestion post s q docId ingId config now).store ingId =
        some { id := ingId, documentId := docId, ingestionId := ingId, config := config
             , status := .queued, progress := 0, startedAt := none, completedAt := none
             , error := none, result := none } ∧
      (triggerIngestion post s q docId ingId config now).queue =
        q ++ [addJob { ingestionId := ingId, documentId := docId, config := config } none] ∧
      (triggerIngestion post s q docId ingId config now).response = (ingId, "queued") := by
  intro post s q docId ingId config now
  exact ⟨by simp [triggerIngestion, storeGet_storeSet_self], rfl, rfl⟩

/-! ## C2 -/

/-- C2 counterexample: re-delivering a queue item for the already-failed
demo job re-processes it: the stored status changes from `failed` to
`completed` and the progress from 50 to 100, so a terminal record is not
protected from further writes. -/
theorem terminal_not_sticky_reprocess_cex :
    (storeGet demoStoreFailed "j").map (fun j => (statusString j.status, j.progress)) =
      some ("failed", 50) ∧
    (storeGet (processDocument post0 demoStoreFailed demoItem none "" 3).store "j").map
        (fun j => (statusString j.status, j.progress)) = some ("completed", 100) :=
  ⟨rfl, rfl⟩

/-- C2 (amended): terminal status is sticky under `cancelIngestion` only:
a `completed` or `failed` record is left untouched by cancellation
(which returns false), but `processDocument` performs no terminal-status
check - whenever the id is present, its first table write overwrites the
record with status `processing` and progress 10, whatever the stored
status was. -/
theorem terminal_sticky_cancel_only :
    (∀ (post : Notification → Except String Unit) (s : JobStore) (ingId : String)
        (now : Nat) (j : IngestionJob),
      storeGet s ingId = some j →
      (j.status = .completed ∨ j.status = .failed) →
      (cancelIngestion post s ingId now).store = s ∧
        (cancelIngestion post s ingId now).cancelled = false) ∧
    (∀ (post : Notification → Except String Unit) (s : JobStore) (d : JobData)
        (fi : Option Nat) (fm : String) (now : Nat) (j : IngestionJob),
      storeGet s d.ingestionId = some j →
      (processDocument post s d fi fm now).writes.head? =
        some { j with status := JobStatus.processing, startedAt := some now, progress := 10 }) := by
  constructor
  · intro post s ingId now j h ht
    constructor <;> simp [cancelIngestion, h, ht]
  · intro post s d fi fm now j h
    simp only [processDocument, h]
    rcases runPhases_writes_grow post now fi fm phases 0
        { store := storeSet s d.ingestionId
            { j with status := JobStatus.processing, startedAt := some now, progress := 10 }
        , job := { j with status := JobStatus.processing, startedAt := some now, progress := 10 }
        , writes := [{ j with status := JobStatus.processing, startedAt := some now, progress := 10 }]
        , notes := [notifyMainAPI post now d.ingestionId "processing" 10 none none] }
      with ⟨l, hl⟩
    rcases hpr : (runPhases post now fi fm phases 0
        { store := storeSet s d.ingestionId
            { j with status := JobStatus.processing, startedAt := some now, progress := 10 }
        , job := { j with status := JobStatus.processing, startedAt := some now, progress := 10 }
        , writes := [{ j with status := JobStatus.processing, startedAt := some now, progress := 10 }]
        , notes := [notifyMainAPI post now d.ingestionId "processing" 10 none none] }).2
      with _ | msg <;>
      simp only [hpr] <;> rw [hl] <;> simp

/-- C2 witness: the amended statement evaluated at the completed demo
record and the failed demo record. -/
theorem terminal_sticky_cancel_only_witness :
    ((cancelIngestion post0 demoStoreFailed "j" 9).store = demoStoreFailed ∧
      (cancelIngestion post0 demoStoreFailed "j" 9).cancelled = false) ∧
    (processDocument post0 demoStoreFailed demoItem none "" 9).writes.head? =
      some { demoFailedJob with status := JobStatus.processing,
                                startedAt := some 9, progress := 10 } :=
  ⟨terminal_sticky_cancel_only.1 post0 demoStoreFailed "j" 9 demoFailedJob (by decide)
      (by decide),
    terminal_sticky_cancel_only.2 post0 demoStoreFailed demoItem none "" 9 demoFailedJob
      (by decide)⟩

/-! ## C8 -/

/-- C8 counterexample: an item whose ingestionId is unknown to the job
table is dropped with only a log: `processDocument` returns silently
with no table write and no notification, yet the Bull handler reports
success, so the item is acked with no recorded outcome anywhere. -/
theorem unknown_item_silent_drop_cex :
    processDocument post0 [] { ingestionId := "x", documentId := "d", config := none } none "" 0 =
      { store := [], writes := [], notes := [] } ∧
    handleDocumentProcessing post0 []
        { ingestionId := "x", documentId := "d", config := none } none "" 0 =
      Except.ok ({ store := [], writes := [], notes := [] }, true,
        "Document processed successfully") ∧
    bullStep 1 defaultJobAttempts defaultBackoffBaseMs
      (handleDocumentProcessing post0 []
        { ingestionId := "x", documentId := "d", config := none } none "" 0) =
      BullOutcome.ack :=
  ⟨rfl, rfl, rfl⟩

/-- C8 (amended): every delivered item is acked (the processor returns
normally even for an unknown ingestionId), but an item whose
ingestionId is absent from the job table produces no recorded outcome:
no table write and no notification attempt. -/
theorem unknown_item_acked_no_outcome :
    ∀ (post : Notification → Except String Unit) (s : JobStore) (d : JobData)
      (fi : Option Nat) (fm : String) (now a m b : Nat),
      storeGet s d.ingestionId = none →
      processDocument post s d fi fm now = { store := s, writes := [], notes := [] } ∧
      bullStep a m b (handleDocumentProcessing post s d fi fm now) = BullOutcome.ack := by
  intro post s d fi fm now a m b h
  exact ⟨by simp [processDocument, h], rfl⟩

/-- C8 witness: the amended statement evaluated on the empty table. -/
theorem unknown_item_acked_no_outcome_witness :
    processDocument post0 [] { ingestionId := "x", documentId := "d", config := none }
        none "" 0 = { store := [], writes := [], notes := [] } ∧
    bullStep 2 defaultJobAttempts defaultBackoffBaseMs
      (handleDocumentProcessing post0 []
        { ingestionId := "x", documentId := "d", config := none } none "" 0) =
      BullOutcome.ack :=
  unknown_item_acked_no_outcome post0 [] { ingestionId := "x", documentId := "d", config := none }
    none "" 0 2 defaultJobAttempts defaultBackoffBaseMs (by decide)

/-! ## C3 -/

/-- C3: evaluating the failing input: a queue item for the queued demo
job whose Text Extraction phase throws "io error".  The processor
swallows the error, marks the job `failed` at once (after a single
attempt, with the error recorded and progress frozen at 20), and returns
normally, so the configured Bull policy (attempts 3, exponential backoff
base 2000 ms) sees a success and acks the first attempt: no retry and no
dead-letter ever happens for a stage failure. -/
theorem stage_failure_acked_first_attempt :
    (storeGet (processDocument post0 demoStore demoItem (some 1) "io error" 3).store "j").map
        (fun j => (statusString j.status, j.error, j.progress)) =
      some ("failed", some "io error", 20) ∧
    bullStep 1 defaultJobAttempts defaultBackoffBaseMs
      (handleDocumentProcessing post0 demoStore demoItem (some 1) "io error" 3) =
      BullOutcome.ack ∧
    BullOutcome.ack ≠ BullOutcome.retryAt (backoffDelay defaultBackoffBaseMs 1) ∧
    BullOutcome.ack ≠ BullOutcome.deadLetter :=
  ⟨rfl, rfl, by decide, by decide⟩

/-! ## C4 -/

/-- C4: in both pipelines, the trace of progress values written during
one job execution is non-decreasing (starting from the 0 written at
creation) and every value is at most 100, for every configuration, every
subset of enabled stages, and every failure point. -/
theorem progress_monotone_bounded :
    (∀ (post : Notification → Except String Unit) (s : JobStore) (d : JobData)
        (fi : Option Nat) (fm : String) (now : Nat),
      ((0 : Nat) :: ((processDocument post s d fi fm now).writes.map
          (fun j => j.progress))).Chain' (· ≤ ·) ∧
      ∀ j ∈ (processDocument post s d fi fm now).writes, j.progress ≤ 100) ∧
    (∀ (cpost : CallbackPayload → Except String Unit) (job : DPJob)
        (cfg : ProcessingConfig) (fa : Option Stage) (fm : String) (elapsed : Nat),
      (dpsProcessDocument cpost job cfg fa fm elapsed).progressUpdates.Chain' (· ≤ ·) ∧
      ∀ p ∈ (dpsProcessDocument cpost job cfg fa fm elapsed).progressUpdates, p ≤ 100) := by
  constructor
  · intro post s d fi fm now
    rcases h : storeGet s d.ingestionId with _ | j
    · exact ⟨by simp [processDocument, h], by simp [processDocument, h]⟩
    · simp only [processDocument, h]
      rcases runPhases_mono post now fi fm phases 0
        { store := storeSet s d.ingestionId
            { j with status := JobStatus.processing, startedAt := some now, progress := 10 }
        , job := { j with status := JobStatus.processing, startedAt := some now, progress := 10 }
        , writes := [{ j with status := JobStatus.processing, startedAt := some now, progress := 10 }]
        , notes := [notifyMainAPI post now d.ingestionId "processing" 10 none none] }
        ⟨List.chain'_singleton _, by simp⟩
        (by simp [phases])
        (by decide)
        (by simp)
        with ⟨hmono, hb⟩
      rcases hpr : (runPhases post now fi fm phases 0
        { store := storeSet s d.ingestionId
            { j with status := JobStatus.processing, startedAt := some now, progress := 10 }
        , job := { j with status := JobStatus.processing, startedAt := some now, progress := 10 }
        , writes := [{ j with status := JobStatus.processing, startedAt := some now, progress := 10 }]
        , notes := [notifyMainAPI post now d.ingestionId "processing" 10 none none] }).2
        with _ | msg <;> simp only [hpr]
      · have hall := monoLe_snoc hmono hb
        constructor
        · refine List.chain'_cons'.mpr ⟨fun y _ => Nat.zero_le y, ?_⟩
          simpa using hall.1
        · intro x hx
          rcases List.mem_append.mp hx with h1 | h2
          · exact hall.2 _ (List.mem_append_left _ (List.mem_map_of_mem _ h1))
          · simp only [List.mem_singleton] at h2
            subst h2
            simp
      · have hall := monoLe_mono (monoLe_snoc hmono (le_refl _)) hb
        constructor
        · refine List.chain'_cons'.mpr ⟨fun y _ => Nat.zero_le y, ?_⟩
          simpa using hall.1
        · intro x hx
          rcases List.mem_append.mp hx with h1 | h2
          · exact hall.2 _ (List.mem_append_left _ (List.mem_map_of_mem _ h1))
          · simp only [List.mem_singleton] at h2
            subst h2
            simpa using hall.2 _ (List.mem_append_right _ (by simp))
  · intro cpost job cfg fa fm elapsed
    have hm := runStages_upds_mono cfg fa fm job stageOrder
      (initialResult job, []) 0
      (monoLe_nil 0) (by decide) (by decide) (by simp)
    rcases hrs : runStages cfg fa fm job stageOrder
      (initialResult job, []) with ⟨msg, r, upds⟩ | ⟨r, upds⟩ <;>
      rw [hrs] at hm <;> simp only [updsOf] at hm
    · exact ⟨by simpa [dpsProcessDocument, hrs] using hm.1,
        by simpa [dpsProcessDocument, hrs] using hm.2⟩
    · have hall := monoLe_snoc hm (le_refl 100)
      exact ⟨by simpa [dpsProcessDocument, hrs] using hall.1,
        by simpa [dpsProcessDocument, hrs] using hall.2⟩

/-- C4 witness: both statements evaluated at a concrete input (queued
demo job, full pipeline with no failure). -/
theorem progress_monotone_bounded_witness :
    (((0 : Nat) :: ((processDocument post0 demoStore demoItem none "" 3).writes.map
        (fun j => j.progress))).Chain' (· ≤ ·) ∧
      ∀ j ∈ (processDocument post0 demoStore demoItem none "" 3).writes, j.progress ≤ 100) ∧
    ((dpsProcessDocument cpost0 demoDPJob cfgAll none "" 42).progressUpdates.Chain' (· ≤ ·) ∧
      ∀ p ∈ (dpsProcessDocument cpost0 demoDPJob cfgAll none "" 42).progressUpdates, p ≤ 100) :=
  ⟨progress_monotone_bounded.1 post0 demoStore demoItem none "" 3,
    progress_monotone_bounded.2 cpost0 demoDPJob cfgAll none "" 42⟩


/-! ## C5 -/

lemma stageDone_set_outcome (r : ProcessingResult) (fm : String) (elapsed : Nat) (st : Stage) :
    stageDone { r with success := false, errors := [fm], processingTime := elapsed } st =
      stageDone r st := by
  cases st <;> simp [stageDone]

/-- C5 counterexample: the failure of an enabled stage is NOT routed to
the retry/dead-letter path: for the demo pipeline job whose enabled
extract-text stage throws "boom", the result does record the failure,
but the consumer hands it to the queue as a successful return, and the
queue acks the attempt instead of retrying or dead-lettering it. -/
theorem stage_failure_not_retried_cex :
    (dpsProcessDocument cpost0 demoDPJob cfgAll (some .extractText) "boom" 0).result.success = false ∧
    (dpsProcessDocument cpost0 demoDPJob cfgAll (some .extractText) "boom" 0).result.errors = ["boom"] ∧
    qcProcessDocument cpost0 demoDPJob cfgAll (some .extractText) "boom" 0 =
      Except.ok (dpsProcessDocument cpost0 demoDPJob cfgAll (some .extractText) "boom" 0) ∧
    bullStep 1 defaultJobAttempts defaultBackoffBaseMs
      (qcProcessDocument cpost0 demoDPJob cfgAll (some .extractText) "boom" 0) = BullOutcome.ack ∧
    BullOutcome.ack ≠ BullOutcome.retryAt (backoffDelay defaultBackoffBaseMs 1) ∧
    BullOutcome.ack ≠ BullOutcome.deadLetter :=
  ⟨rfl, rfl, rfl, rfl, by decide, by decide⟩

/-- C5 (amended): when an enabled stage throws, all later stages are
skipped (their output fields stay unset), the result records
`success := false` with exactly the thrown message, and the owning job
is marked `failed` with that error; but the failure never reaches the
retry/dead-letter path of the queue - both consumers return normally, so the
attempt is acked. -/
theorem stage_failure_aborts_and_reports :
    (∀ (cpost : CallbackPayload → Except String Unit) (job : DPJob)
        (cfg : ProcessingConfig) (st : Stage) (fm : String) (elapsed : Nat),
      stageEnabled cfg st = true →
      (dpsProcessDocument cpost job cfg (some st) fm elapsed).result.success = false ∧
      (dpsProcessDocument cpost job cfg (some st) fm elapsed).result.errors = [fm] ∧
      (∀ st2, stageIdx st < stageIdx st2 →
        stageDone (dpsProcessDocument cpost job cfg (some st) fm elapsed).result st2 = false) ∧
      qcProcessDocument cpost job cfg (some st) fm elapsed =
        Except.ok (dpsProcessDocument cpost job cfg (some st) fm elapsed)) ∧
    (∀ (post : Notification → Except String Unit) (s : JobStore) (d : JobData)
        (k : Nat) (fm : String) (now : Nat) (j : IngestionJob),
      storeGet s d.ingestionId = some j → k < phases.length →
      (storeGet (processDocument post s d (some k) fm now).store d.ingestionId).map
          (fun j => (j.status, j.error)) = some (JobStatus.failed, some fm) ∧
      handleDocumentProcessing post s d (some k) fm now =
        Except.ok (processDocument post s d (some k) fm now, true,
          "Document processed successfully")) := by
  constructor
  · intro cpost job cfg st fm elapsed he
    have hsplit : ∃ r u,
        runStages cfg (some st) fm job stageOrder (initialResult job, []) = .error (fm, r, u) ∧
        ∀ st2, stageIdx st < stageIdx st2 → stageDone r st2 = false := by
      cases st
      case extractText =>
        obtain ⟨a, ha⟩ := runStages_ok_of_fail_absent cfg (some Stage.extractText) fm job
          [] (initialResult job, []) (by decide)
        refine ⟨a.1, a.2 ++ [checkpointOf Stage.extractText], ?_, ?_⟩
        · rw [show stageOrder = [] ++ [Stage.extractText, Stage.performOCR, Stage.extractKeywords, Stage.generateSummary, Stage.detectLanguage, Stage.enableSearch] from rfl,
            runStages_split cfg (some Stage.extractText) fm job []
              [Stage.extractText, Stage.performOCR, Stage.extractKeywords, Stage.generateSummary, Stage.detectLanguage, Stage.enableSearch] _, ha]
          simp [runStages, he]
        · intro st2 hlt
          have hnotin : st2 ∉ [] := by
            cases st2 <;> revert hlt <;> decide
          have hd := runStages_stageDone_absent cfg (some Stage.extractText) fm job st2
            [] (initialResult job, []) hnotin
          rw [ha] at hd
          simp only [resultOf] at hd
          rw [hd]
          cases st2 <;> simp [stageDone, initialResult]
      case performOCR =>
        obtain ⟨a, ha⟩ := runStages_ok_of_fail_absent cfg (some Stage.performOCR) fm job
          [Stage.extractText] (initialResult job, []) (by decide)
        refine ⟨a.1, a.2 ++ [checkpointOf Stage.performOCR], ?_, ?_⟩
        · rw [show stageOrder = [Stage.extractText] ++ [Stage.performOCR, Stage.extractKeywords, Stage.generateSummary, Stage.detectLanguage, Stage.enableSearch] from rfl,
            runStages_split cfg (some Stage.performOCR) fm job [Stage.extractText]
              [Stage.performOCR, Stage.extractKeywords, Stage.generateSummary, Stage.detectLanguage, Stage.enableSearch] _, ha]
          simp [runStages, he]
        · intro st2 hlt
          have hnotin : st2 ∉ [Stage.extractText] := by
            cases st2 <;> revert hlt <;> decide
          have hd := runStages_stageDone_absent cfg (some Stage.performOCR) fm job st2
            [Stage.extractText] (initialResult job, []) hnotin
          rw [ha] at hd
          simp only [resultOf] at hd
          rw [hd]
          cases st2 <;> simp [stageDone, initialResult]
      case extractKeywords =>
        obtain ⟨a, ha⟩ := runStages_ok_of_fail_absent cfg (some Stage.extractKeywords) fm job
          [Stage.extractText, Stage.performOCR] (initialResult job, []) (by decide)
        refine ⟨a.1, a.2 ++ [checkpointOf Stage.extractKeywords], ?_, ?_⟩
        · rw [show stageOrder = [Stage.extractText, Stage.performOCR] ++ [Stage.extractKeywords, Stage.generateSummary, Stage.detectLanguage, Stage.enableSearch] from rfl,
            runStages_split cfg (some Stage.extractKeywords) fm job [Stage.extractText, Stage.performOCR]
              [Stage.extractKeywords, Stage.generateSummary, Stage.detectLanguage, Stage.enableSearch] _, ha]
          simp [runStages, he]
        · intro st2 hlt
          have hnotin : st2 ∉ [Stage.extractText, Stage.performOCR] := by
            cases st2 <;> revert hlt <;> decide
          have hd := runStages_stageDone_absent cfg (some Stage.extractKeywords) fm job st2
            [Stage.extractText, Stage.performOCR] (initialResult job, []) hnotin
          rw [ha] at hd
          simp only [resultOf] at hd
          rw [hd]
          cases st2 <;> simp [stageDone, initialResult]
      case generateSummary =>
        obtain ⟨a, ha⟩ := runStages_ok_of_fail_absent cfg (some Stage.generateSummary) fm job
          [Stage.extractText, Stage.performOCR, Stage.extractKeywords] (initialResult job, []) (by decide)
        refine ⟨a.1, a.2 ++ [checkpointOf Stage.generateSummary], ?_, ?_⟩
        · rw [show stageOrder = [Stage.extractText, Stage.performOCR, Stage.extractKeywords] ++ [Stage.generateSummary, Stage.detectLanguage, Stage.enableSearch] from rfl,
            runStages_split cfg (some Stage.generateSummary) fm job [Stage.extractText, Stage.performOCR, Stage.extractKeywords]
              [Stage.generateSummary, Stage.detectLanguage, Stage.enableSearch] _, ha]
          simp [runStages, he]
        · intro st2 hlt
          have hnotin : st2 ∉ [Stage.extractText, Stage.performOCR, Stage.extractKeywords] := by
            cases st2 <;> revert hlt <;> decide
          have hd := runStages_stageDone_absent cfg (some Stage.generateSummary) fm job st2
            [Stage.extractText, Stage.performOCR, Stage.extractKeywords] (initialResult job, []) hnotin
          rw [ha] at hd
          simp only [resultOf] at hd
          rw [hd]
          cases st2 <;> simp [stageDone, initialResult]
      case detectLanguage =>
        obtain ⟨a, ha⟩ := runStages_ok_of_fail_absent cfg (some Stage.detectLanguage) fm job
          [Stage.extractText, Stage.performOCR, Stage.extractKeywords, Stage.generateSummary] (initialResult job, []) (by decide)
        refine ⟨a.1, a.2 ++ [checkpointOf Stage.detectLanguage], ?_, ?_⟩
        · rw [show stageOrder = [Stage.extractText, Stage.performOCR, Stage.extractKeywords, Stage.generateSummary] ++ [Stage.detectLanguage, Stage.enableSearch] from rfl,
            runStages_split cfg (some Stage.detectLanguage) fm job [Stage.extractText, Stage.performOCR, Stage.extractKeywords, Stage.generateSummary]
              [Stage.detectLanguage, Stage.enableSearch] _, ha]
          simp [runStages, he]
        · intro st2 hlt
          have hnotin : st2 ∉ [Stage.extractText, Stage.performOCR, Stage.extractKeywords, Stage.generateSummary] := by
            cases st2 <;> revert hlt <;> decide
          have hd := runStages_stageDone_absent cfg (some Stage.detectLanguage) fm job st2
            [Stage.extractText, Stage.performOCR, Stage.extractKeywords, Stage.generateSummary] (initialResult job, []) hnotin
          rw [ha] at hd
          simp only [resultOf] at hd
          rw [hd]
          cases st2 <;> simp [stageDone, initialResult]
      case enableSearch =>
        obtain ⟨a, ha⟩ := runStages_ok_of_fail_absent cfg (some Stage.enableSearch) fm job
          [Stage.extractText, Stage.performOCR, Stage.extractKeywords, Stage.generateSummary, Stage.detectLanguage] (initialResult job, []) (by decide)
        refine ⟨a.1, a.2 ++ [checkpointOf Stage.enableSearch], ?_, ?_⟩
        · rw [show stageOrder = [Stage.extractText, Stage.performOCR, Stage.extractKeywords, Stage.generateSummary, Stage.detectLanguage] ++ [Stage.enableSearch] from rfl,
            runStages_split cfg (some Stage.enableSearch) fm job [Stage.extractText, Stage.performOCR, Stage.extractKeywords, Stage.generateSummary, Stage.detectLanguage]
              [Stage.enableSearch] _, ha]
          simp [runStages, he]
        · intro st2 hlt
          have hnotin : st2 ∉ [Stage.extractText, Stage.performOCR, Stage.extractKeywords, Stage.generateSummary, Stage.detectLanguage] := by
            cases st2 <;> revert hlt <;> decide
          have hd := runStages_stageDone_absent cfg (some Stage.enableSearch) fm job st2
            [Stage.extractText, Stage.performOCR, Stage.extractKeywords, Stage.generateSummary, Stage.detectLanguage] (initialResult job, []) hnotin
          rw [ha] at hd
          simp only [resultOf] at hd
          rw [hd]
          cases st2 <;> simp [stageDone, initialResult]
    obtain ⟨r, u, hpipe, hafter⟩ := hsplit
    refine ⟨?_, ?_, ?_, rfl⟩
    · simp [dpsProcessDocument, hpipe]
    · simp [dpsProcessDocument, hpipe]
    · intro st2 hlt
      have hstep : (dpsProcessDocument cpost job cfg (some st) fm elapsed).result =
          { r with success := false, errors := [fm], processingTime := elapsed } := by
        simp [dpsProcessDocument, hpipe]
      rw [hstep, stageDone_set_outcome]
      exact hafter st2 hlt
  · intro post s d k fm now j h hk
    have hfail := runPhases_fail post now k fm phases 0
      { store := storeSet s d.ingestionId
          { j with status := JobStatus.processing, startedAt := some now, progress := 10 },
        job := { j with status := JobStatus.processing, startedAt := some now, progress := 10 },
        writes := [{ j with status := JobStatus.processing, startedAt := some now, progress := 10 }],
        notes := [notifyMainAPI post now d.ingestionId "processing" 10 none none] }
      (Nat.zero_le k) (by simpa using hk)
    refine ⟨?_, rfl⟩
    simp only [processDocument, h, hfail]
    rw [storeGet_storeSet_self]
    simp

/-- C5 witness: both statements evaluated at concrete inputs (OCR stage
throwing "net down"; first simulated phase throwing "crash"). -/
theorem stage_failure_aborts_and_reports_witness :
    ((dpsProcessDocument cpost0 demoDPJob cfgAll (some .performOCR) "net down" 1).result.success = false ∧
      (dpsProcessDocument cpost0 demoDPJob cfgAll (some .performOCR) "net down" 1).result.errors = ["net down"] ∧
      (∀ st2, stageIdx .performOCR < stageIdx st2 →
        stageDone (dpsProcessDocument cpost0 demoDPJob cfgAll (some .performOCR) "net down" 1).result st2 = false) ∧
      qcProcessDocument cpost0 demoDPJob cfgAll (some .performOCR) "net down" 1 =
        Except.ok (dpsProcessDocument cpost0 demoDPJob cfgAll (some .performOCR) "net down" 1)) ∧
    ((storeGet (processDocument post0 demoStore demoItem (some 0) "crash" 4).store "j").map
        (fun j => (j.status, j.error)) = some (JobStatus.failed, some "crash") ∧
      handleDocumentProcessing post0 demoStore demoItem (some 0) "crash" 4 =
        Except.ok (processDocument post0 demoStore demoItem (some 0) "crash" 4, true,
          "Document processed successfully")) :=
  ⟨stage_failure_aborts_and_reports.1 cpost0 demoDPJob cfgAll .performOCR "net down" 1 (by decide),
    stage_failure_aborts_and_reports.2 post0 demoStore demoItem 0 "crash" 4 demoQueuedJob
      (by decide) (by decide)⟩

/-! ## C7 -/

lemma notifyMainAPI_fst_eq (post : Notification → Except String Unit) (now : Nat)
    (ingId st : String) (p : Nat) (r : Option JobResult) (e : Option String) :
    (notifyMainAPI post now ingId st p r e).1 = notifyPayload now ingId st p r e := by
  unfold notifyMainAPI
  rcases post (notifyPayload now ingId st p r e) with _ | _ <;> rfl

lemma sendProcessingCallback_fst_eq (cpost : CallbackPayload → Except String Unit)
    (d : String) (r : ProcessingResult) :
    (sendProcessingCallback cpost d r).1 = { documentId := d, result := r } := by
  rcases h : cpost { documentId := d, result := r } with _ | _ <;>
    simp [sendProcessingCallback, h]

lemma runPhases_post_agree (post post2 : Notification → Except String Unit) (now : Nat)
    (fi : Option Nat) (fm : String) (ps : List (String × Nat)) :
    ∀ (i : Nat) (st st2 : PhaseState),
      st.store = st2.store → st.job = st2.job → st.writes = st2.writes →
      st.notes.map Prod.fst = st2.notes.map Prod.fst →
      (runPhases post now fi fm ps i st).1.store = (runPhases post2 now fi fm ps i st2).1.store ∧
      (runPhases post now fi fm ps i st).1.job = (runPhases post2 now fi fm ps i st2).1.job ∧
      (runPhases post now fi fm ps i st).1.writes = (runPhases post2 now fi fm ps i st2).1.writes ∧
      (runPhases post now fi fm ps i st).1.notes.map Prod.fst =
        (runPhases post2 now fi fm ps i st2).1.notes.map Prod.fst ∧
      (runPhases post now fi fm ps i st).2 = (runPhases post2 now fi fm ps i st2).2 := by
  induction ps with
  | nil =>
      intro i st st2 h1 h2 h3 h4
      exact ⟨h1, h2, h3, h4, rfl⟩
  | cons hd rest ih =>
      rcases hd with ⟨nm, p⟩
      intro i st st2 h1 h2 h3 h4
      by_cases hf : fi = some i
      · refine ⟨?_, ?_, ?_, ?_, ?_⟩ <;> simp [runPhases, hf] <;>
          first
          | exact h1
          | exact h2
          | exact h3
          | exact h4
      · simp only [runPhases, if_neg hf]
        apply ih (i + 1)
        · rw [h1, h2]
        · rw [h2]
        · rw [h2, h3]
        · simp only [List.map_append, List.map_cons, List.map_nil, notifyMainAPI_fst_eq, h2, h4]

/-- C7: a notification transport failure is invisible to the stored job
state, in both services: for every delivery oracle, the job table, the
write trace and the attempted payloads of `processDocument` (and the
result, progress trace and callback payload of the pipeline variant of
`processDocument`) are identical to the run in which every delivery
succeeds, and the queue consumers still return success - no transport
exception escapes the notifying functions. -/
theorem notification_failure_non_fatal :
    (∀ (post : Notification → Except String Unit) (s : JobStore) (d : JobData)
        (fi : Option Nat) (fm : String) (now : Nat),
      (processDocument post s d fi fm now).store = (processDocument post0 s d fi fm now).store ∧
      (processDocument post s d fi fm now).writes = (processDocument post0 s d fi fm now).writes ∧
      (processDocument post s d fi fm now).notes.map Prod.fst =
        (processDocument post0 s d fi fm now).notes.map Prod.fst ∧
      handleDocumentProcessing post s d fi fm now =
        Except.ok (processDocument post s d fi fm now, true,
          "Document processed successfully")) ∧
    (∀ (cpost : CallbackPayload → Except String Unit) (job : DPJob)
        (cfg : ProcessingConfig) (fa : Option Stage) (fm : String) (elapsed : Nat),
      (dpsProcessDocument cpost job cfg fa fm elapsed).result =
        (dpsProcessDocument cpost0 job cfg fa fm elapsed).result ∧
      (dpsProcessDocument cpost job cfg fa fm elapsed).progressUpdates =
        (dpsProcessDocument cpost0 job cfg fa fm elapsed).progressUpdates ∧
      (dpsProcessDocument cpost job cfg fa fm elapsed).callback.1 =
        (dpsProcessDocument cpost0 job cfg fa fm elapsed).callback.1 ∧
      qcProcessDocument cpost job cfg fa fm elapsed =
        Except.ok (dpsProcessDocument cpost job cfg fa fm elapsed)) := by
  constructor
  · intro post s d fi fm now
    rcases h : storeGet s d.ingestionId with _ | j
    · refine ⟨?_, ?_, ?_, rfl⟩ <;> simp [processDocument, h]
    · have hag := runPhases_post_agree post post0 now fi fm phases 0
        { store := storeSet s d.ingestionId
            { j with status := JobStatus.processing, startedAt := some now, progress := 10 }
        , job := { j with status := JobStatus.processing, startedAt := some now, progress := 10 }
        , writes := [{ j with status := JobStatus.processing, startedAt := some now, progress := 10 }]
        , notes := [notifyMainAPI post now d.ingestionId "processing" 10 none none] }
        { store := storeSet s d.ingestionId
            { j with status := JobStatus.processing, startedAt := some now, progress := 10 }
        , job := { j with status := JobStatus.processing, startedAt := some now, progress := 10 }
        , writes := [{ j with status := JobStatus.processing, startedAt := some now, progress := 10 }]
        , notes := [notifyMainAPI post0 now d.ingestionId "processing" 10 none none] }
        rfl rfl rfl (by simp [notifyMainAPI_fst_eq])
      rcases hag with ⟨e1, e2, e3, e4, e5⟩
      rcases hpr : (runPhases post now fi fm phases 0
        { store := storeSet s d.ingestionId
            { j with status := JobStatus.processing, startedAt := some now, progress := 10 }
        , job := { j with status := JobStatus.processing, startedAt := some now, progress := 10 }
        , writes := [{ j with status := JobStatus.processing, startedAt := some now, progress := 10 }]
        , notes := [notifyMainAPI post now d.ingestionId "processing" 10 none none] }).2
        with _ | msg
      · have hpr2 : (runPhases post0 now fi fm phases 0
            { store := storeSet s d.ingestionId
                { j with status := JobStatus.processing, startedAt := some now, progress := 10 }
            , job := { j with status := JobStatus.processing, startedAt := some now, progress := 10 }
            , writes := [{ j with status := JobStatus.processing, startedAt := some now, progress := 10 }]
            , notes := [notifyMainAPI post0 now d.ingestionId "processing" 10 none none] }).2 = none := by
          rw [← e5, hpr]
        refine ⟨?_, ?_, ?_, rfl⟩ <;> simp only [processDocument, h, hpr, hpr2]
        · rw [e1, e2]
        · rw [e2, e3]
        · simp only [List.map_append, List.map_cons, List.map_nil, notifyMainAPI_fst_eq]
          rw [e4]
      · have hpr2 : (runPhases post0 now fi fm phases 0
            { store := storeSet s d.ingestionId
                { j with status := JobStatus.processing, startedAt := some now, progress := 10 }
            , job := { j with status := JobStatus.processing, startedAt := some now, progress := 10 }
            , writes := [{ j with status := JobStatus.processing, startedAt := some now, progress := 10 }]
            , notes := [notifyMainAPI post0 now d.ingestionId "processing" 10 none none] }).2 = some msg := by
          rw [← e5, hpr]
        refine ⟨?_, ?_, ?_, rfl⟩ <;> simp only [processDocument, h, hpr, hpr2]
        · rw [e1, e2]
        · rw [e2, e3]
        · simp only [List.map_append, List.map_cons, List.map_nil, notifyMainAPI_fst_eq]
          rw [e2, e4]
  · intro cpost job cfg fa fm elapsed
    rcases hrs : runStages cfg fa fm job stageOrder (initialResult job, [])
      with ⟨msg, r, upds⟩ | ⟨r, upds⟩ <;>
      refine ⟨?_, ?_, ?_, rfl⟩ <;>
      simp [dpsProcessDocument, hrs, sendProcessingCallback_fst_eq]

/-- C7 witness: the statements evaluated with the always-failing
transports against the always-succeeding ones. -/
theorem notification_failure_non_fatal_witness :
    ((processDocument postFail demoStore demoItem none "" 3).store =
        (processDocument post0 demoStore demoItem none "" 3).store ∧
      (processDocument postFail demoStore demoItem none "" 3).writes =
        (processDocument post0 demoStore demoItem none "" 3).writes ∧
      (processDocument postFail demoStore demoItem none "" 3).notes.map Prod.fst =
        (processDocument post0 demoStore demoItem none "" 3).notes.map Prod.fst ∧
      handleDocumentProcessing postFail demoStore demoItem none "" 3 =
        Except.ok (processDocument postFail demoStore demoItem none "" 3, true,
          "Document processed successfully")) ∧
    ((dpsProcessDocument cpostFail demoDPJob cfgAll none "" 42).result =
        (dpsProcessDocument cpost0 demoDPJob cfgAll none "" 42).result ∧
      (dpsProcessDocument cpostFail demoDPJob cfgAll none "" 42).progressUpdates =
        (dpsProcessDocument cpost0 demoDPJob cfgAll none "" 42).progressUpdates ∧
      (dpsProcessDocument cpostFail demoDPJob cfgAll none "" 42).callback.1 =
        (dpsProcessDocument cpost0 demoDPJob cfgAll none "" 42).callback.1 ∧
      qcProcessDocument cpostFail demoDPJob cfgAll none "" 42 =
        Except.ok (dpsProcessDocument cpostFail demoDPJob cfgAll none "" 42)) :=
  ⟨notification_failure_non_fatal.1 postFail demoStore demoItem none "" 3,
    notification_failure_non_fatal.2 cpostFail demoDPJob cfgAll none "" 42⟩

/-! ## C10 -/

/-- C10 counterexample: for the defined empty text, the fallback list
["document","content","text"] claimed for a text with no qualifying
token is not returned - the JS falsy guard `if (!text)` also fires for
the empty string and yields ["document","file",fileType] instead. -/
theorem extractKeywords_empty_text_cex :
    extractKeywords "pdf" (some "") = ["document", "file", "pdf"] ∧
    ((jsSplitWs (strToLower "")).filter (fun w => 3 < w.length)) = [] ∧
    extractKeywords "pdf" (some "") ≠ ["document", "content", "text"] :=
  ⟨rfl, by decide, by decide⟩

/-- C10 (amended): an undefined OR empty text yields
["document","file",fileType]; any other defined text yields at most 10
distinct whitespace-delimited tokens of the lowercased text, each longer
than 3 characters, with the fixed fallback ["document","content","text"]
when no token qualifies. -/
theorem extractKeywords_spec :
    (∀ ft : String, extractKeywords ft none = ["document", "file", ft]) ∧
    (∀ ft : String, extractKeywords ft (some "") = ["document", "file", ft]) ∧
    (∀ ft t : String, t ≠ "" →
      (extractKeywords ft (some t)).length ≤ 10 ∧
      (((uniqueFirst (jsSplitWs (strToLower t))).filter (fun w => 3 < w.length) = [] ∧
          extractKeywords ft (some t) = ["document", "content", "text"]) ∨
        ((extractKeywords ft (some t)).Nodup ∧
          ∀ k ∈ extractKeywords ft (some t),
            k ∈ jsSplitWs (strToLower t) ∧ 3 < k.length))) := by
  refine ⟨fun ft => rfl, fun ft => rfl, ?_⟩
  intro ft t ht
  have hunfold : extractKeywords ft (some t) =
      (if 0 < (((uniqueFirst (jsSplitWs (strToLower t))).filter
            (fun w => 3 < w.length)).take 10).length
        then ((uniqueFirst (jsSplitWs (strToLower t))).filter
            (fun w => 3 < w.length)).take 10
        else ["document", "content", "text"]) := by
    simp [extractKeywords, ht]
  by_cases hL : (uniqueFirst (jsSplitWs (strToLower t))).filter (fun w => 3 < w.length) = []
  · rw [hunfold, hL]
    exact ⟨by simp, Or.inl ⟨rfl, by simp⟩⟩
  · have hpos : 0 < (((uniqueFirst (jsSplitWs (strToLower t))).filter
        (fun w => 3 < w.length)).take 10).length := by
      rw [List.length_take]
      exact lt_min_iff.mpr ⟨by norm_num, List.length_pos.mpr hL⟩
    rw [hunfold, if_pos hpos]
    refine ⟨?_, Or.inr ⟨?_, ?_⟩⟩
    · rw [List.length_take]
      exact min_le_left _ _
    · exact List.Nodup.sublist (List.take_sublist _ _)
        (List.Nodup.filter _ (uniqueFirst_nodup _))
    · intro k hk
      have hk2 : k ∈ (uniqueFirst (jsSplitWs (strToLower t))).filter
          (fun w => 3 < w.length) := List.mem_of_mem_take hk
      have hk3 := List.mem_filter.mp hk2
      exact ⟨uniqueFirst_subset _ _ hk3.1, by simpa using hk3.2⟩

/-- C10 witness: the amended statement evaluated on a five-token text
with three qualifying tokens. -/
theorem extractKeywords_spec_witness :
    extractKeywords "pdf" none = ["document", "file", "pdf"] ∧
    extractKeywords "docx" (some "") = ["document", "file", "docx"] ∧
    ((extractKeywords "pdf" (some "hello world the brown fox")).length ≤ 10 ∧
      (((uniqueFirst (jsSplitWs (strToLower "hello world the brown fox"))).filter
            (fun w => 3 < w.length) = [] ∧
          extractKeywords "pdf" (some "hello world the brown fox") =
            ["document", "content", "text"]) ∨
        ((extractKeywords "pdf" (some "hello world the brown fox")).Nodup ∧
          ∀ k ∈ extractKeywords "pdf" (some "hello world the brown fox"),
            k ∈ jsSplitWs (strToLower "hello world the brown fox") ∧ 3 < k.length))) :=
  ⟨extractKeywords_spec.1 "pdf", extractKeywords_spec.2.1 "docx",
    extractKeywords_spec.2.2 "pdf" "hello world the brown fox" (by decide)⟩
